import Mathlib

/-!
Shallow embedding of the Car Management backend
(`src/routes/carRoutes.js`, `src/server.js` auth middleware).

The record store (MongoDB collection of `Car` documents) is modelled as a
`List Car`; `Car.findOne`, `Car.findOneAndUpdate` and `Car.findOneAndDelete`
with the filter `{_id: id, user: uid}` become first-match operations on that
list.  External collaborators are abstracted as function parameters:
`JSON.parse` on the `existingImages` field becomes
`parse : String → Option (List String)` (`none` = throws / not a string
list), `cloudinary.uploader.destroy` becomes a success predicate
`destroyOk : String → Bool` on the asset identifier passed to it, and
`jwt.verify` becomes `verify : String → Option String` returning the
embedded subject id.  Uploaded files arrive in the handlers already carrying
their Cloudinary URL in `.path` (multer-storage-cloudinary), so a file is
just its resulting path.
-/

set_option autoImplicit false

namespace CarMgmt

/-- A persisted car record: `{_id, title, description, tags[], images[], user}`. -/
structure Car where
  id : String
  title : String
  description : String
  tags : List String
  images : List String
  user : String
deriving Repr, DecidableEq

/-- A file processed by `upload.array`: only its resulting Cloudinary URL
(`file.path`) is observable in the handlers. -/
structure UploadedFile where
  path : String
deriving Repr, DecidableEq

/-- Body of a JSON response sent by a handler. -/
inductive ResBody where
  | car (c : Car)
  | cars (cs : List Car)
  | message (m : String)
  | error (e : String)
  | jsonNull
deriving Repr, DecidableEq

/-- An HTTP response: `res.status(code).json(body)`. -/
structure HttpResponse where
  status : Nat
  body : ResBody
deriving Repr, DecidableEq

/-- The Mongo filter `{_id: req.params.id, user: req.user.id}`. -/
def carFilter (id uid : String) (c : Car) : Bool :=
  c.id == id && c.user == uid

/-- Embedding of `Car.findOneAndUpdate(filter, f, {new: true})`: update the
first record matching `p` by `f`, returning the post-update document and the
new store. -/
def findOneAndUpdate (p : Car → Bool) (f : Car → Car) :
    List Car → Option Car × List Car
  | [] => (none, [])
  | c :: cs =>
    if p c then (some (f c), f c :: cs)
    else
      let r := findOneAndUpdate p f cs
      (r.1, c :: r.2)

/-- Embedding of `Car.findOneAndDelete(filter)`: remove the first record
matching `p`. -/
def findOneAndDelete (p : Car → Bool) :
    List Car → Option Car × List Car
  | [] => (none, [])
  | c :: cs =>
    if p c then (some c, cs)
    else
      let r := findOneAndDelete p cs
      (r.1, c :: r.2)

/-- Embedding of `router.post('/')`: create a new car.  `images` is
`req.files ? req.files.map(file => file.path) : []`; `saveOk` models whether
`newCar.save()` succeeds (a rejection lands in the catch block). -/
def createCar (uid : String) (title description : String) (tags : List String)
    (files : Option (List UploadedFile)) (saveOk : Bool) (newId : String)
    (store : List Car) : HttpResponse × List Car :=
  let images : List String :=
    match files with
    | none => []
    | some fs => fs.map (·.path)
  let newCar : Car :=
    { id := newId, title := title, description := description,
      tags := tags, images := images, user := uid }
  if saveOk then (⟨201, .car newCar⟩, store ++ [newCar])
  else (⟨500, .error "Error creating car"⟩, store)

/-- Embedding of `router.put('/:id')`: update a car.  Mirrors the handler:
ownership-scoped `findOne` first, then
`JSON.parse(existingImages || "[]")` (the `||` treats an empty string like an
absent field; a parse failure lands in the catch block), then appends the
new upload URLs when `req.files` is non-empty, then `findOneAndUpdate`. -/
def updateCar (parse : String → Option (List String)) (uid id : String)
    (title description : String) (tags : List String)
    (existingImages : Option String) (files : Option (List UploadedFile))
    (store : List Car) : HttpResponse × List Car :=
  match store.find? (carFilter id uid) with
  | none => (⟨404, .error "Car not found"⟩, store)
  | some _ =>
    let serialized : String :=
      match existingImages with
      | none => "[]"
      | some s => if s == "" then "[]" else s
    match parse serialized with
    | none => (⟨500, .error "Error updating car"⟩, store)
    | some retained =>
      let fs := files.getD []
      let images :=
        if fs.length > 0 then retained ++ fs.map (·.path) else retained
      let upd : Car → Car := fun c =>
        { c with title := title, description := description,
                 tags := tags, images := images }
      let r := findOneAndUpdate (carFilter id uid) upd store
      match r.1 with
      | some updated => (⟨200, .car updated⟩, r.2)
      | none => (⟨200, .jsonNull⟩, r.2)

/-- Embedding of JavaScript `split(sep)` for a one-character separator: split at every
occurrence, always returning at least one (possibly empty) group. -/
def splitChar (sep : Char) : List Char → List (List Char)
  | [] => [[]]
  | c :: cs =>
    match splitChar sep cs with
    | [] => [[]]
    | g :: gs => if c = sep then [] :: g :: gs else (c :: g) :: gs

/-- Embedding of `imageUrl.split('/').pop().split('.')[0]`. -/
def publicId (url : String) : String :=
  let lastSeg := (splitChar '/' url.toList).getLastD []
  String.mk ((splitChar '.' lastSeg).headD [])

/-- The identifier passed to `cloudinary.uploader.destroy`:
`` `cars/${publicId}` ``. -/
def destroyTarget (url : String) : String :=
  "cars/" ++ publicId url

/-- The sequential `for … await cloudinary.uploader.destroy(...)` loop:
returns the list of destroy calls actually issued, in order, and whether all
of them succeeded.  The first failing call aborts the loop. -/
def destroySeq (destroyOk : String → Bool) : List String → List String × Bool
  | [] => ([], true)
  | url :: rest =>
    let t := destroyTarget url
    if destroyOk t then
      let r := destroySeq destroyOk rest
      (t :: r.1, r.2)
    else ([t], false)

/-- Embedding of `router.delete('/:id')`: ownership-scoped `findOne`, then the sequential
destroy loop, then `findOneAndDelete` only if every destroy succeeded.
Also returns the trace of issued destroy calls. -/
def deleteCar (destroyOk : String → Bool) (uid id : String)
    (store : List Car) : HttpResponse × List Car × List String :=
  match store.find? (carFilter id uid) with
  | none => (⟨404, .error "Car not found"⟩, store, [])
  | some car =>
    let r := destroySeq destroyOk car.images
    if r.2 then
      let d := findOneAndDelete (carFilter id uid) store
      (⟨200, .message "Car deleted successfully"⟩, d.2, r.1)
    else (⟨500, .error "Error deleting car"⟩, store, r.1)

/-- Embedding of `router.get('/:id')`: ownership-scoped lookup. -/
def getCar (uid id : String) (store : List Car) : HttpResponse :=
  match store.find? (carFilter id uid) with
  | none => ⟨404, .error "Car not found"⟩
  | some car => ⟨200, .car car⟩

/-- Embedding of `router.get('/')`: all cars owned by the caller. -/
def getCars (uid : String) (store : List Car) : HttpResponse :=
  ⟨200, .cars (store.filter (fun c => c.user == uid))⟩

/-- Result of the auth middleware: either a 401 with an error message, or a
resolved user id attached to the request (`req.user`). -/
inductive AuthResult where
  | unauthorized (error : String)
  | authorized (userId : String)
deriving Repr, DecidableEq

/-- Embedding of JavaScript `s.replace(pat, '')` for a fixed non-empty
pattern: remove the first occurrence of `pat`, if any. -/
def stripFirst (pat : List Char) : List Char → List Char
  | [] => []
  | c :: cs =>
    if pat.isPrefixOf (c :: cs) then (c :: cs).drop pat.length
    else c :: stripFirst pat cs

/-- Embedding of `req.header('Authorization')?.replace('Bearer ', '')`. -/
def extractToken (header : String) : String :=
  String.mk (stripFirst "Bearer ".toList header.toList)

/-- The auth middleware (`src/server.js`): absent header or empty extracted
token → 401 "Authorization required"; `jwt.verify` failure → 401
"Invalid token"; subject not in the user store → 401 "User not found";
otherwise the resolved identity. -/
def authMiddleware (verify : String → Option String) (users : List String)
    (header : Option String) : AuthResult :=
  match header with
  | none => .unauthorized "Authorization required"
  | some h =>
    let token := extractToken h
    if token == "" then .unauthorized "Authorization required"
    else
      match verify token with
      | none => .unauthorized "Invalid token"
      | some sub =>
        if users.contains sub then .authorized sub
        else .unauthorized "User not found"

/-- Composition of the middleware with a wrapped route handler: on a 401 the
handler never runs and the car store is untouched. -/
def runGuarded (auth : AuthResult)
    (handler : String → List Car → HttpResponse × List Car)
    (store : List Car) : HttpResponse × List Car :=
  match auth with
  | .unauthorized e => (⟨401, .error e⟩, store)
  | .authorized uid => handler uid store

/-! ### Concrete instances used to exercise the model -/

/-- A concrete instance of the abstract `JSON.parse` collaborator, defined on
the serialized lists the examples use; everything else — including the empty
string, which real `JSON.parse` rejects — is a parse failure. -/
def parseStrict : String → Option (List String) :=
  fun s =>
    if s = "[]" then some []
    else if s = "[\"urlA\"]" then some ["urlA"]
    else none

/-- A car owned by `"alice"` with one stored image. -/
def demoCar : Car :=
  { id := "car1", title := "Tesla Model X",
    description := "Fully electric luxury SUV",
    tags := ["electric", "luxury"],
    images := ["https://res.example.com/cars/old.jpg"],
    user := "alice" }

/-- A car owned by `"bob"`. -/
def bobCar : Car :=
  { id := "car2", title := "Bob car", description := "sedan", tags := [],
    images := ["https://res.example.com/cars/img2.png"],
    user := "bob" }

/-- A car owned by `"alice"` with two stored images. -/
def twoImgCar : Car :=
  { id := "car3", title := "Old Car", description := "classic", tags := [],
    images := ["https://res.example.com/cars/a.jpg",
               "https://res.example.com/cars/b.jpg"],
    user := "alice" }

/-- A concrete destroy outcome: every asset deletion succeeds except
`"cars/b"`. -/
def destroyDemo : String → Bool := fun t => t ≠ "cars/b"

/-- A concrete instance of the abstract `jwt.verify` collaborator: only the
token `"tok"` is valid, with subject `"alice"`. -/
def verifyDemo : String → Option String :=
  fun t => if t = "tok" then some "alice" else none

/-! ### Helper lemmas about first-match store operations -/

theorem find?_split {p : Car → Bool} {pre post : List Car} {a : Car}
    (hpre : ∀ c ∈ pre, p c = false) (ha : p a = true) :
    (pre ++ a :: post).find? p = some a := by
  induction pre with
  | nil => simp [List.find?_cons, ha]
  | cons c cs ih =>
    have hc := hpre c (List.mem_cons_self c cs)
    simp [List.find?_cons, hc,
      ih fun d hd => hpre d (List.mem_cons_of_mem c hd)]

theorem find?_eq_some_split {p : Car → Bool} {l : List Car} {a : Car}
    (h : l.find? p = some a) :
    ∃ pre post, l = pre ++ a :: post ∧ ∀ c ∈ pre, p c = false := by
  induction l with
  | nil => simp [List.find?] at h
  | cons c cs ih =>
    by_cases hc : p c
    · rw [List.find?_cons_of_pos _ hc] at h
      obtain rfl : c = a := by injection h
      exact ⟨[], cs, rfl, by simp⟩
    · rw [List.find?_cons_of_neg _ hc] at h
      obtain ⟨pre, post, rfl, hpre⟩ := ih h
      refine ⟨c :: pre, post, rfl, ?_⟩
      intro d hd
      rcases List.mem_cons.1 hd with rfl | hd
      · exact Bool.eq_false_iff.mpr hc
      · exact hpre d hd

theorem findOneAndUpdate_split (p : Car → Bool) (f : Car → Car)
    {pre post : List Car} {a : Car}
    (hpre : ∀ c ∈ pre, p c = false) (ha : p a = true) :
    findOneAndUpdate p f (pre ++ a :: post) = (some (f a), pre ++ f a :: post) := by
  induction pre with
  | nil => simp [findOneAndUpdate, ha]
  | cons c cs ih =>
    have hc := hpre c (List.mem_cons_self c cs)
    simp [findOneAndUpdate, hc,
      ih fun d hd => hpre d (List.mem_cons_of_mem c hd)]

theorem findOneAndDelete_split (p : Car → Bool)
    {pre post : List Car} {a : Car}
    (hpre : ∀ c ∈ pre, p c = false) (ha : p a = true) :
    findOneAndDelete p (pre ++ a :: post) = (some a, pre ++ post) := by
  induction pre with
  | nil => simp [findOneAndDelete, ha]
  | cons c cs ih =>
    have hc := hpre c (List.mem_cons_self c cs)
    simp [findOneAndDelete, hc,
      ih fun d hd => hpre d (List.mem_cons_of_mem c hd)]

/-! ### Helper lemmas about the sequential destroy loop -/

theorem destroySeq_all_ok (ok : String → Bool) (l : List String)
    (h : ∀ u ∈ l, ok (destroyTarget u) = true) :
    destroySeq ok l = (l.map destroyTarget, true) := by
  induction l with
  | nil => rfl
  | cons u rest ih =>
    have hu := h u (List.mem_cons_self u rest)
    simp [destroySeq, hu,
      ih fun v hv => h v (List.mem_cons_of_mem u hv)]

theorem destroySeq_first_fail (ok : String → Bool)
    (pre post : List String) (u : String)
    (hpre : ∀ v ∈ pre, ok (destroyTarget v) = true)
    (hu : ok (destroyTarget u) = false) :
    destroySeq ok (pre ++ u :: post)
      = (pre.map destroyTarget ++ [destroyTarget u], false) := by
  induction pre with
  | nil => simp [destroySeq, hu]
  | cons v vs ih =>
    have hv := hpre v (List.mem_cons_self v vs)
    simp [destroySeq, hv,
      ih fun w hw => hpre w (List.mem_cons_of_mem v hw)]

theorem exists_first_false {α : Type} (p : α → Bool) {l : List α}
    (h : ∃ u ∈ l, p u = false) :
    ∃ pre u post, l = pre ++ u :: post
      ∧ (∀ v ∈ pre, p v = true) ∧ p u = false := by
  induction l with
  | nil => simp at h
  | cons c cs ih =>
    by_cases hc : p c
    · obtain ⟨u, hu, hpu⟩ := h
      rcases List.mem_cons.1 hu with rfl | hu
      · rw [hc] at hpu; cases hpu
      · obtain ⟨pre, u', post, rfl, hpre, hu'⟩ := ih ⟨u, hu, hpu⟩
        refine ⟨c :: pre, u', post, rfl, ?_, hu'⟩
        intro v hv
        rcases List.mem_cons.1 hv with rfl | hv
        · exact hc
        · exact hpre v hv
    · exact ⟨[], c, cs, rfl, by simp, Bool.eq_false_iff.mpr hc⟩

/-! ### Helper lemmas about single-character split -/

theorem splitChar_ne_nil (sep : Char) (l : List Char) : splitChar sep l ≠ [] := by
  cases l with
  | nil => simp [splitChar]
  | cons c cs =>
    simp only [splitChar]
    cases splitChar sep cs with
    | nil => simp
    | cons g gs => by_cases h : c = sep <;> simp [h]

theorem splitChar_append (sep : Char) (a b : List Char) :
    splitChar sep (a ++ sep :: b) = splitChar sep a ++ splitChar sep b := by
  induction a with
  | nil =>
    simp only [List.nil_append, splitChar]
    cases hb : splitChar sep b with
    | nil => exact absurd hb (splitChar_ne_nil sep b)
    | cons g gs => simp [splitChar]
  | cons c a ih =>
    cases ha : splitChar sep a with
    | nil => exact absurd ha (splitChar_ne_nil sep a)
    | cons g gs =>
      simp only [List.cons_append, splitChar, List.append_eq]
      rw [ih, ha]
      by_cases h : c = sep <;> simp [h]

theorem splitChar_of_not_mem {sep : Char} {l : List Char} (h : sep ∉ l) :
    splitChar sep l = [l] := by
  induction l with
  | nil => rfl
  | cons c cs ih =>
    have hc : ¬ c = sep := fun e => h (e ▸ List.mem_cons_self c cs)
    have hcs : sep ∉ cs := fun m => h (List.mem_cons_of_mem c m)
    simp [splitChar, ih hcs, hc]

theorem publicId_of_shape (base name ext : List Char)
    (h1 : '/' ∉ name) (h2 : '.' ∉ name) (h3 : '/' ∉ ext) :
    publicId (String.mk (base ++ '/' :: (name ++ '.' :: ext)))
      = String.mk name := by
  have hseg : '/' ∉ name ++ '.' :: ext := by
    intro hm
    rcases List.mem_append.1 hm with hm | hm
    · exact h1 hm
    · rcases List.mem_cons.1 hm with hm | hm
      · exact absurd hm (by decide)
      · exact h3 hm
  have htl : (String.mk (base ++ '/' :: (name ++ '.' :: ext))).toList
      = base ++ '/' :: (name ++ '.' :: ext) := rfl
  unfold publicId
  rw [htl, splitChar_append, splitChar_of_not_mem hseg, List.getLastD_concat]
  show String.mk ((splitChar '.' (name ++ '.' :: ext)).headD []) = String.mk name
  rw [splitChar_append, splitChar_of_not_mem h2]
  rfl

/-! ### The successful-update path, shared by several claims -/

theorem updateCar_success (parse : String → Option (List String))
    (uid id title description : String) (tags : List String)
    (existingImages : Option String) (files : Option (List UploadedFile))
    (pre post : List Car) (car : Car) (retained : List String)
    (hpre : ∀ c ∈ pre, carFilter id uid c = false)
    (hcar : carFilter id uid car = true)
    (hparse : parse (match existingImages with
        | none => "[]"
        | some s => if s == "" then "[]" else s) = some retained) :
    updateCar parse uid id title description tags existingImages files
        (pre ++ car :: post)
      = (⟨200, .car { car with
            title := title
            description := description
            tags := tags
            images := retained ++ (files.getD []).map (·.path) }⟩,
         pre ++ { car with
            title := title
            description := description
            tags := tags
            images := retained ++ (files.getD []).map (·.path) } :: post) := by
  have hfind := @find?_split (carFilter id uid) pre post car hpre hcar
  have himg : (if (files.getD []).length > 0
      then retained ++ (files.getD []).map (·.path) else retained)
      = retained ++ (files.getD []).map (·.path) := by
    cases files with
    | none => simp
    | some fs =>
      cases fs with
      | nil => simp
      | cons f fs => simp
  simp only [updateCar, hfind, hparse, himg,
    findOneAndUpdate_split _ _ hpre hcar]

/-! ### Claims C1, C4, C7 (counterexample and amended), C8, C9, C10 -/

/-- Claim C1: for every Update on an owned, existing record, the resulting
images list equals the retained list (parsed from `existingImages`)
concatenated with the newly uploaded files' URLs, in that order; a URL
previously on the record that is neither retained nor equal to a fresh
upload URL no longer appears. -/
theorem c1_update_image_reconciliation
    (parse : String → Option (List String)) (uid id title description : String)
    (tags retained : List String) (s : String)
    (files : Option (List UploadedFile)) (store : List Car) (car : Car)
    (hfind : store.find? (carFilter id uid) = some car)
    (hs : s ≠ "") (hparse : parse s = some retained) :
    ∃ updated : Car,
      (updateCar parse uid id title description tags (some s) files store).1
        = ⟨200, .car updated⟩
      ∧ updated.images = retained ++ (files.getD []).map (·.path)
      ∧ (updateCar parse uid id title description tags (some s) files
          store).2.find? (carFilter id uid) = some updated
      ∧ (∀ u ∈ car.images, u ∉ retained →
          u ∉ (files.getD []).map (·.path) → u ∉ updated.images) := by
  obtain ⟨pre, post, rfl, hpre⟩ := find?_eq_some_split hfind
  have hcar : carFilter id uid car = true := List.find?_some hfind
  have hs' : (s == "") = false := beq_eq_false_iff_ne.mpr hs
  have hparse' : parse (match some s with
      | none => "[]"
      | some t => if t == "" then "[]" else t) = some retained := by
    simpa [hs'] using hparse
  have h := updateCar_success parse uid id title description tags (some s)
    files pre post car retained hpre hcar hparse'
  refine ⟨{ car with
      title := title
      description := description
      tags := tags
      images := retained ++ (files.getD []).map (·.path) }, ?_, rfl, ?_, ?_⟩
  · rw [h]
  · rw [h]
    exact find?_split hpre hcar
  · intro u _ hr hn hmem
    rcases List.mem_append.1 hmem with hmem | hmem
    · exact hr hmem
    · exact hn hmem

theorem c1_witness :
    ∃ updated : Car,
      (updateCar parseStrict "alice" "car1" "T" "D" ["t"] (some "[\"urlA\"]")
          (some [⟨"https://res.example.com/cars/new.png"⟩]) [demoCar]).1
        = ⟨200, .car updated⟩
      ∧ updated.images = ["urlA", "https://res.example.com/cars/new.png"] := by
  obtain ⟨u, h1, h2, h3, h4⟩ := c1_update_image_reconciliation parseStrict
    "alice" "car1" "T" "D" ["t"] ["urlA"] "[\"urlA\"]"
    (some [⟨"https://res.example.com/cars/new.png"⟩]) [demoCar] demoCar
    (by decide) (by decide) (by decide)
  exact ⟨u, h1, by simpa using h2⟩

/-- Claim C4: every valid Create returns a record whose `user` is the
caller's identity and whose `images` has exactly one URL per uploaded file,
in submission order; zero files yields an empty list. -/
theorem c4_create_record (uid title description newId : String)
    (tags : List String) (files : Option (List UploadedFile))
    (store : List Car) :
    ∃ newCar : Car,
      createCar uid title description tags files true newId store
        = (⟨201, .car newCar⟩, store ++ [newCar])
      ∧ newCar.user = uid
      ∧ newCar.images = (files.getD []).map (·.path)
      ∧ newCar.images.length = (files.getD []).length
      ∧ (files.getD [] = [] → newCar.images = []) := by
  cases files with
  | none =>
    refine ⟨_, rfl, rfl, rfl, ?_, fun _ => rfl⟩
    simp [createCar]
  | some fs =>
    refine ⟨_, rfl, rfl, rfl, ?_, fun hfs => ?_⟩
    · simp [createCar]
    · simp only [Option.getD] at hfs
      simp [createCar, hfs]

theorem c4_witness :
    ∃ newCar : Car,
      createCar "alice" "Tesla Model X" "Fully electric luxury SUV"
          ["electric", "luxury"] none true "car9" []
        = (⟨201, .car newCar⟩, [newCar])
      ∧ newCar.user = "alice" ∧ newCar.images = [] := by
  obtain ⟨c, h1, h2, h3, h4, h5⟩ := c4_create_record "alice" "Tesla Model X"
    "Fully electric luxury SUV" "car9" ["electric", "luxury"] none []
  exact ⟨c, by simpa using h1, h2, h5 rfl⟩

/-- Claim C7 counterexample: `existingImages` present as the empty string —
which real `JSON.parse` rejects, hence "present but not a well-formed
serialized list" — does NOT produce a 500 on an owned, existing record: the
`existingImages || "[]"` fallback treats the falsy empty string like an
absent field, the update succeeds with status 200, and the record IS
changed. -/
theorem c7_counterexample :
    parseStrict "" = none
    ∧ ([demoCar].find? (carFilter "car1" "alice") = some demoCar)
    ∧ (updateCar parseStrict "alice" "car1" "T" "D" [] (some "") none
        [demoCar]).1.status = 200
    ∧ (updateCar parseStrict "alice" "car1" "T" "D" [] (some "") none
        [demoCar]).2 ≠ [demoCar] := by
  decide

/-- Claim C7 amended: for every Update on an owned, existing record whose
`existingImages` field is present, NON-EMPTY, and not a well-formed
serialized list, the operation fails with 500 and the store is unchanged
(a present-but-empty string is treated like an absent field instead). -/
theorem c7_amended_malformed_fails
    (parse : String → Option (List String)) (uid id title description : String)
    (tags : List String) (s : String) (files : Option (List UploadedFile))
    (store : List Car) (car : Car)
    (hfind : store.find? (carFilter id uid) = some car)
    (hs : s ≠ "") (hparse : parse s = none) :
    updateCar parse uid id title description tags (some s) files store
      = (⟨500, .error "Error updating car"⟩, store) := by
  have hs' : (s == "") = false := beq_eq_false_iff_ne.mpr hs
  simp [updateCar, hfind, hs', hparse]

theorem c7_witness :
    updateCar parseStrict "alice" "car1" "T" "D" [] (some "oops") none
        [demoCar]
      = (⟨500, .error "Error updating car"⟩, [demoCar]) :=
  c7_amended_malformed_fails parseStrict "alice" "car1" "T" "D" [] "oops" none
    [demoCar] demoCar (by decide) (by decide) (by decide)

/-- Claim C8: a successful Update replaces title, description, tags (and the
reconciled images) wholesale in one store operation — the matched record is
replaced in place, every other record is untouched — and returns the
post-update record. -/
theorem c8_update_wholesale
    (parse : String → Option (List String)) (uid id title description : String)
    (tags retained : List String) (s : String)
    (files : Option (List UploadedFile)) (pre post : List Car) (car : Car)
    (hpre : ∀ c ∈ pre, carFilter id uid c = false)
    (hcar : carFilter id uid car = true)
    (hs : s ≠ "") (hparse : parse s = some retained) :
    updateCar parse uid id title description tags (some s) files
        (pre ++ car :: post)
      = (⟨200, .car { car with
            title := title
            description := description
            tags := tags
            images := retained ++ (files.getD []).map (·.path) }⟩,
         pre ++ { car with
            title := title
            description := description
            tags := tags
            images := retained ++ (files.getD []).map (·.path) } :: post) := by
  have hs' : (s == "") = false := beq_eq_false_iff_ne.mpr hs
  have hparse' : parse (match some s with
      | none => "[]"
      | some t => if t == "" then "[]" else t) = some retained := by
    simpa [hs'] using hparse
  exact updateCar_success parse uid id title description tags (some s) files
    pre post car retained hpre hcar hparse'

theorem c8_witness :
    updateCar parseStrict "alice" "car1" "New title" "New desc" ["x"]
        (some "[\"urlA\"]") none ([] ++ demoCar :: [bobCar])
      = (⟨200, .car { demoCar with
            title := "New title"
            description := "New desc"
            tags := ["x"]
            images := ["urlA"] ++
              ((none : Option (List UploadedFile)).getD []).map (·.path) }⟩,
         [] ++ { demoCar with
            title := "New title"
            description := "New desc"
            tags := ["x"]
            images := ["urlA"] ++
              ((none : Option (List UploadedFile)).getD []).map (·.path) }
          :: [bobCar]) :=
  c8_update_wholesale parseStrict "alice" "car1" "New title" "New desc" ["x"]
    ["urlA"] "[\"urlA\"]" none [] [bobCar] demoCar (by simp) (by decide)
    (by decide) (by decide)

/-- Claim C9: an Update on an owned, existing record with no
`existingImages` field defaults the retained list to the empty list rather
than erroring; with no uploaded files either, the update succeeds and the
stored record ends up with an empty images list. -/
theorem c9_update_absent_defaults_empty
    (parse : String → Option (List String)) (uid id title description : String)
    (tags : List String) (store : List Car) (car : Car)
    (hfind : store.find? (carFilter id uid) = some car)
    (hp : parse "[]" = some []) :
    ∃ updated : Car,
      (updateCar parse uid id title description tags none none store).1
        = ⟨200, .car updated⟩
      ∧ updated.images = []
      ∧ (updateCar parse uid id title description tags none none
          store).2.find? (carFilter id uid) = some updated := by
  obtain ⟨pre, post, rfl, hpre⟩ := find?_eq_some_split hfind
  have hcar : carFilter id uid car = true := List.find?_some hfind
  have h := updateCar_success parse uid id title description tags none none
    pre post car [] hpre hcar hp
  refine ⟨{ car with
      title := title
      description := description
      tags := tags
      images := [] ++ ((none : Option (List UploadedFile)).getD []).map
        (·.path) }, ?_, rfl, ?_⟩
  · rw [h]
  · rw [h]
    exact find?_split hpre hcar

theorem c9_witness :
    ∃ updated : Car,
      (updateCar parseStrict "alice" "car1" "T" "D" [] none none [demoCar]).1
        = ⟨200, .car updated⟩
      ∧ updated.images = []
      ∧ (updateCar parseStrict "alice" "car1" "T" "D" [] none none
          [demoCar]).2.find? (carFilter "car1" "alice") = some updated :=
  c9_update_absent_defaults_empty parseStrict "alice" "car1" "T" "D" []
    [demoCar] demoCar (by decide) (by decide)

/-- Claim C10: in Update the ownership-scoped existence check runs before
`existingImages` is parsed: an id that does not resolve to a record owned by
the caller yields 404 even when `existingImages` is malformed, so 404 takes
precedence over the 500 a parse failure would cause. -/
theorem c10_notfound_precedes_parse
    (parse : String → Option (List String)) (uid id title description : String)
    (tags : List String) (s : String) (files : Option (List UploadedFile))
    (store : List Car)
    (hfind : store.find? (carFilter id uid) = none)
    (_hparse : parse s = none) :
    updateCar parse uid id title description tags (some s) files store
      = (⟨404, .error "Car not found"⟩, store) := by
  simp [updateCar, hfind]

theorem c10_witness :
    updateCar parseStrict "alice" "car2" "T" "D" [] (some "oops") none [bobCar]
      = (⟨404, .error "Car not found"⟩, [bobCar]) :=
  c10_notfound_precedes_parse parseStrict "alice" "car2" "T" "D" [] "oops"
    none [bobCar] (by decide) (by decide)

/-! ### Claims C2, C3, C5, C6 -/

/-- Claim C2: on Delete of an owned, existing record, remote deletions are
issued sequentially over the record's images; if one fails the loop aborts
(the trace stops at the first failing call), the response is 500, the store
is unchanged and the record is still retrievable; the record is removed
only when every remote deletion succeeds. -/
theorem c2_delete_all_or_nothing (destroyOk : String → Bool) (uid id : String)
    (pre post : List Car) (car : Car)
    (hpre : ∀ c ∈ pre, carFilter id uid c = false)
    (hcar : carFilter id uid car = true)
    (hpost : ∀ c ∈ post, carFilter id uid c = false) :
    ((∃ u ∈ car.images, destroyOk (destroyTarget u) = false) →
      ∃ ipre u ipost,
        car.images = ipre ++ u :: ipost
        ∧ (∀ v ∈ ipre, destroyOk (destroyTarget v) = true)
        ∧ destroyOk (destroyTarget u) = false
        ∧ deleteCar destroyOk uid id (pre ++ car :: post)
            = (⟨500, .error "Error deleting car"⟩, pre ++ car :: post,
               ipre.map destroyTarget ++ [destroyTarget u])
        ∧ getCar uid id (pre ++ car :: post) = ⟨200, .car car⟩)
    ∧ ((∀ u ∈ car.images, destroyOk (destroyTarget u) = true) →
        deleteCar destroyOk uid id (pre ++ car :: post)
          = (⟨200, .message "Car deleted successfully"⟩, pre ++ post,
             car.images.map destroyTarget)
        ∧ (pre ++ post).find? (carFilter id uid) = none) := by
  have hfind := @find?_split (carFilter id uid) pre post car hpre hcar
  constructor
  · intro h
    obtain ⟨ipre, u, ipost, heq, hima, himf⟩ :=
      exists_first_false (fun u => destroyOk (destroyTarget u)) h
    refine ⟨ipre, u, ipost, heq, hima, himf, ?_, ?_⟩
    · have hseq := destroySeq_first_fail destroyOk ipre ipost u hima himf
      simp [deleteCar, hfind, heq, hseq]
    · simp only [getCar, hfind]
  · intro h
    have hseq := destroySeq_all_ok destroyOk car.images h
    have hdel := @findOneAndDelete_split (carFilter id uid) pre post car
      hpre hcar
    constructor
    · simp [deleteCar, hfind, hseq, hdel]
    · rw [List.find?_eq_none]
      intro c hc
      rcases List.mem_append.1 hc with hc | hc
      · simp [hpre c hc]
      · simp [hpost c hc]

theorem c2_witness :
    ∃ ipre u ipost,
      twoImgCar.images = ipre ++ u :: ipost
      ∧ (∀ v ∈ ipre, destroyDemo (destroyTarget v) = true)
      ∧ destroyDemo (destroyTarget u) = false
      ∧ deleteCar destroyDemo "alice" "car3" ([] ++ twoImgCar :: [])
          = (⟨500, .error "Error deleting car"⟩, [] ++ twoImgCar :: [],
             ipre.map destroyTarget ++ [destroyTarget u])
      ∧ getCar "alice" "car3" ([] ++ twoImgCar :: [])
          = ⟨200, .car twoImgCar⟩ :=
  (c2_delete_all_or_nothing destroyDemo "alice" "car3" [] [] twoImgCar
      (by simp) (by decide) (by simp)).1
    ⟨"https://res.example.com/cars/b.jpg", by decide, by decide⟩

/-- Claim C3: a caller `A` cannot Get, Update, or Delete a record owned by a
different identity `B`: every such attempt yields the very same 404 response
as a nonexistent id, and the store is unchanged — the record's existence is
not leaked. -/
theorem c3_ownership_isolation (parse : String → Option (List String))
    (destroyOk : String → Bool) (A B : String)
    (title description : String) (tags : List String)
    (existingImages : Option String) (files : Option (List UploadedFile))
    (store : List Car) (car : Car) (id missingId : String)
    (_hcar : car ∈ store) (_hid : car.id = id) (hB : car.user = B)
    (huniq : ∀ c ∈ store, c.id = id → c = car) (hAB : A ≠ B)
    (hmissing : ∀ c ∈ store, c.id ≠ missingId) :
    getCar A id store = ⟨404, .error "Car not found"⟩
    ∧ updateCar parse A id title description tags existingImages files store
        = (⟨404, .error "Car not found"⟩, store)
    ∧ deleteCar destroyOk A id store
        = (⟨404, .error "Car not found"⟩, store, [])
    ∧ getCar A missingId store = ⟨404, .error "Car not found"⟩ := by
  have hnone : store.find? (carFilter id A) = none := by
    rw [List.find?_eq_none]
    intro c hc
    simp only [carFilter, Bool.and_eq_true, beq_iff_eq, not_and]
    intro hcid hcu
    have hc' := huniq c hc hcid
    rw [hc', hB] at hcu
    exact hAB hcu.symm
  have hnone' : store.find? (carFilter missingId A) = none := by
    rw [List.find?_eq_none]
    intro c hc
    simp only [carFilter, Bool.and_eq_true, beq_iff_eq, not_and]
    intro hcid _
    exact absurd hcid (hmissing c hc)
  refine ⟨?_, ?_, ?_, ?_⟩
  · simp [getCar, hnone]
  · simp [updateCar, hnone]
  · simp [deleteCar, hnone]
  · simp [getCar, hnone']

theorem c3_witness :
    getCar "alice" "car2" [bobCar] = ⟨404, .error "Car not found"⟩
    ∧ updateCar parseStrict "alice" "car2" "T" "D" [] (some "[]") none
        [bobCar] = (⟨404, .error "Car not found"⟩, [bobCar])
    ∧ deleteCar destroyDemo "alice" "car2" [bobCar]
        = (⟨404, .error "Car not found"⟩, [bobCar], [])
    ∧ getCar "alice" "nope" [bobCar] = ⟨404, .error "Car not found"⟩ :=
  c3_ownership_isolation parseStrict destroyDemo "alice" "bob" "T" "D" []
    (some "[]") none [bobCar] bobCar "car2" "nope" (by decide) (by decide)
    (by decide) (by decide) (by decide) (by decide)

/-- Claim C5: an absent bearer header yields 401 "Authorization required";
a presented but invalid credential yields 401 "Invalid token"; a valid
credential whose subject does not resolve to a stored identity yields 401
"User not found".  In the missing- and invalid-credential cases the result
does not depend on the user store at all (the 401 is produced before any
store access), and on any 401 the wrapped handler never runs and the car
store is untouched. -/
theorem c5_auth_gate (verify : String → Option String)
    (users users' : List String) (h : String) :
    authMiddleware verify users none = .unauthorized "Authorization required"
    ∧ (extractToken h ≠ "" → verify (extractToken h) = none →
        authMiddleware verify users (some h) = .unauthorized "Invalid token")
    ∧ (∀ sub, extractToken h ≠ "" → verify (extractToken h) = some sub →
        users.contains sub = false →
        authMiddleware verify users (some h)
          = .unauthorized "User not found")
    ∧ authMiddleware verify users none = authMiddleware verify users' none
    ∧ (verify (extractToken h) = none →
        authMiddleware verify users (some h)
          = authMiddleware verify users' (some h))
    ∧ (∀ (e : String) (handler : String → List Car → HttpResponse × List Car)
        (st : List Car),
        runGuarded (.unauthorized e) handler st = (⟨401, .error e⟩, st)) := by
  refine ⟨rfl, ?_, ?_, rfl, ?_, fun e handler st => rfl⟩
  · intro hne hv
    have hne' : (extractToken h == "") = false := beq_eq_false_iff_ne.mpr hne
    simp [authMiddleware, hne', hv]
  · intro sub hne hv hc
    have hne' : (extractToken h == "") = false := beq_eq_false_iff_ne.mpr hne
    have hm : sub ∉ users := by simpa using hc
    simp [authMiddleware, hne', hv, hm]
  · intro hv
    by_cases ht : extractToken h = ""
    · simp [authMiddleware, ht]
    · have hne' : (extractToken h == "") = false := beq_eq_false_iff_ne.mpr ht
      simp [authMiddleware, hne', hv]

theorem c5_witness :
    authMiddleware verifyDemo ["alice"] none
      = .unauthorized "Authorization required"
    ∧ authMiddleware verifyDemo ["alice"] (some "Bearer bad")
      = .unauthorized "Invalid token"
    ∧ authMiddleware verifyDemo [] (some "Bearer tok")
      = .unauthorized "User not found"
    ∧ runGuarded (.unauthorized "Invalid token")
        (fun uid st => (⟨200, .message uid⟩, st)) [demoCar]
      = (⟨401, .error "Invalid token"⟩, [demoCar]) :=
  ⟨(c5_auth_gate verifyDemo ["alice"] ["alice"] "x").1,
   (c5_auth_gate verifyDemo ["alice"] ["alice"] "Bearer bad").2.1
     (by decide) (by decide),
   (c5_auth_gate verifyDemo [] [] "Bearer tok").2.2.1 "alice"
     (by decide) (by decide) (by decide),
   (c5_auth_gate verifyDemo ["alice"] ["alice"] "x").2.2.2.2.2
     "Invalid token" (fun uid st => (⟨200, .message uid⟩, st)) [demoCar]⟩

/-- Claim C6: for every image URL of the form `.../<name>.<ext>` (final path
segment `<name>.<ext>`, `<name>` free of `/` and `.`, `<ext>` free of `/`),
the identifier sent to the Remote Asset Store is the final path segment
truncated before the extension, qualified with the `cars/` namespace:
`cars/<name>`. -/
theorem c6_destroy_identifier (base name ext : List Char)
    (h1 : '/' ∉ name) (h2 : '.' ∉ name) (h3 : '/' ∉ ext) :
    destroyTarget (String.mk (base ++ '/' :: (name ++ '.' :: ext)))
      = "cars/" ++ String.mk name := by
  unfold destroyTarget
  rw [publicId_of_shape base name ext h1 h2 h3]

theorem c6_witness :
    destroyTarget (String.mk
        ("https://res.example.com/demo/image/upload/cars".toList
          ++ '/' :: ("mycar".toList ++ '.' :: "jpg".toList)))
      = "cars/" ++ String.mk "mycar".toList :=
  c6_destroy_identifier "https://res.example.com/demo/image/upload/cars".toList
    "mycar".toList "jpg".toList (by decide) (by decide) (by decide)

end CarMgmt
